import Mathlib

/-!
# Verification of the ICMP probing engine (ping / traceroute)

Shallow embedding of the ICMP packet codec and the two probing engines of
the `python-network-utils` repository (`src/ping.py`, `src/traceroute.py`).

Conventions of the embedding:
* a byte buffer is a `List Nat` whose elements are intended to be `< 256`;
* `x >> 16` is `x / 65536`, `x & 0xFFFF` is `x % 65536`, and for a
  nonnegative `x` Python's `~x & 0xFFFF` is `65535 - x % 65536`;
* Python code that can raise an exception is embedded as an `Option`
  (`none` = the exception propagates);
* wall-clock round-trip times are opaque rational inputs.
-/

namespace NetworkUtils

/-- The 16-bit big-endian words `int.from_bytes(data[i:i+2], "big")` of
`_checksum`: an odd-length buffer is first padded with one zero byte
(`data += b"\x00"`), so a trailing lone byte `b` becomes the word `b * 256`. -/
def toWords : List Nat → List Nat
  | [] => []
  | [b] => [b * 256]
  | b1 :: b2 :: rest => (b1 * 256 + b2) :: toWords rest

/-- The carry fold and final complement of `_checksum`, as a function of the
plain word sum `total`:
`total = (total >> 16) + (total & 0xFFFF); total += total >> 16;
return ~total & 0xFFFF`. -/
def chkOfSum (total : Nat) : Nat :=
  65535 -
    ((total / 65536 + total % 65536)
      + (total / 65536 + total % 65536) / 65536) % 65536

/-- `_checksum(data)` from `src/ping.py` (the copy in `src/traceroute.py` is
byte-for-byte identical): sum the big-endian 16-bit words, fold the carries
twice, and return the one's complement masked to 16 bits. -/
def checksum (data : List Nat) : Nat :=
  chkOfSum (toWords data).sum

/-- Splicing a 16-bit value into the checksum field (bytes 2 and 3) of a
buffer, big-endian, as generation does after computing the checksum over the
buffer with that field zeroed. -/
def spliceChecksum (data : List Nat) (c : Nat) : List Nat :=
  data.take 2 ++ [c / 256, c % 256] ++ data.drop 4

/-- `_create_icmp_packet(packet_id, seq, payload_size)` from `src/ping.py`.
`struct.pack("!BBHHH", 8, 0, chk, packet_id, seq)` is the big-endian byte
list `[8, 0, chk / 256, chk % 256, id / 256, id % 256, seq / 256, seq % 256]`
and raises `struct.error` for a field not fitting its width (`none` here);
`bytes(range(payload_size))` is `List.range payload_size` and raises
`ValueError` when `payload_size > 256` (`none` here). The checksum is
computed over the header with a zeroed checksum field plus the payload, then
the header is re-packed with it. -/
def createIcmpPacket (packet_id seq payload_size : Nat) : Option (List Nat) :=
  if 65536 ≤ packet_id ∨ 65536 ≤ seq ∨ 256 < payload_size then none
  else
    let header := [8, 0, 0, 0,
      packet_id / 256, packet_id % 256, seq / 256, seq % 256]
    let payload := List.range payload_size
    let c := checksum (header ++ payload)
    some ([8, 0, c / 256, c % 256,
      packet_id / 256, packet_id % 256, seq / 256, seq % 256] ++ payload)

/-- `_parse_icmp_reply(data, packet_id)` from `src/ping.py`. The outer
`Option` is exception propagation: `data[:20][8]` raises `IndexError` when
the buffer is shorter than 9 bytes, and `struct.unpack("!BBHHH", data[20:28])`
raises `struct.error` when `data[20:28]` is shorter than 8 bytes, i.e. when
the buffer is shorter than 28 bytes. The inner `Option` is the function's
own result: `none` is Python's `None` (invalid / discarded), `some (seq, ttl)`
a matching Echo Reply. -/
def parseIcmpReply (data : List Nat) (packet_id : Nat) :
    Option (Option (Nat × Nat)) :=
  if data.length < 9 then none
  else if data.length < 28 then none
  else
    let ttl := data.getD 8 0
    let icmp_header := (data.drop 20).take 8
    let icmp_type := icmp_header.getD 0 0
    let code := icmp_header.getD 1 0
    let recv_id := icmp_header.getD 4 0 * 256 + icmp_header.getD 5 0
    let seq := icmp_header.getD 6 0 * 256 + icmp_header.getD 7 0
    if checksum (icmp_header ++ data.drop 28) ≠ 0 then some none
    else if icmp_type = 0 ∧ code = 0 ∧ recv_id = packet_id then
      some (some (seq, ttl))
    else some none

/-- The identifier field of a received buffer (bytes 24-25, i.e. bytes 4-5 of
the ICMP segment after the 20-byte IP header), big-endian, as
`_parse_icmp_reply` unpacks it. -/
def recvIdOf (data : List Nat) : Nat :=
  (data.drop 20).getD 4 0 * 256 + (data.drop 20).getD 5 0

/-- The ICMP type byte of a received buffer: `data[20]`, the first byte after
the 20-byte IP header. -/
def icmpTypeOf (data : List Nat) : Nat :=
  (data.drop 20).getD 0 0

/-- How `traceroute_stream` in `src/traceroute.py` treats one received
buffer (its inline decoding, lines 126-160). -/
inductive TrOutcome where
  /-- `recv_sock.recvfrom` timed out: the probe prints ` * `. -/
  | star : TrOutcome
  /-- ICMP type 11 with a valid checksum: hop answered. -/
  | timeExceeded : TrOutcome
  /-- ICMP type 0 with a valid checksum: destination reached. -/
  | echoReply : TrOutcome
  /-- `_checksum(data[20:]) != 0`: the probe is skipped (`continue`). -/
  | skipInvalid : TrOutcome
  /-- any other ICMP type: neither branch taken, nothing recorded. -/
  | skipOther : TrOutcome
deriving DecidableEq, Repr

/-- The inline per-buffer decoding of `traceroute_stream`: check
`_checksum(data[20:])`, then dispatch on the type byte `data[20]`
(`11` Time Exceeded, `0` Echo Reply, anything else ignored). Note that no
identifier comparison occurs anywhere on this path. -/
def trClassify (data : List Nat) : TrOutcome :=
  if checksum (data.drop 20) ≠ 0 then .skipInvalid
  else if icmpTypeOf data = 11 then .timeExceeded
  else if icmpTypeOf data = 0 then .echoReply
  else .skipOther

/-- What one `sock.recvfrom(1024)` call delivers during a ping probe:
either `socket.timeout`, or a raw buffer together with the (opaque)
round-trip time that `ping` would measure for it. -/
inductive RecvEvent where
  | timeout : RecvEvent
  | buffer (data : List Nat) (rtt : ℚ) : RecvEvent
deriving DecidableEq

/-- The accumulator of the probe loop of `ping` in `src/ping.py`:
`packets_received` and the list `rtts`, in arrival order. -/
structure PingAcc where
  received : Nat
  rtts : List ℚ
deriving DecidableEq, Repr

/-- The probe loop of `ping` (`for seq in range(1, count + 1)` in
`src/ping.py`): every iteration sends one packet and performs **exactly one**
`recvfrom`, consuming exactly one event from the socket's delivery queue.
A timeout contributes nothing (`pass`); a buffer is parsed once, a parse
exception aborts the session (outer `none`), a `None` parse contributes
nothing, and a matching reply appends its round-trip time and increments
`packets_received`. The unconsumed tail of the queue is returned: the loop
never goes back for a second buffer within the same probe. -/
def pingLoop (packet_id : Nat) :
    Nat → List RecvEvent → Option (PingAcc × List RecvEvent)
  | 0, queue => some (⟨0, []⟩, queue)
  | _ + 1, [] => none
  | n + 1, event :: queue =>
    match event with
    | .timeout => pingLoop packet_id n queue
    | .buffer data rtt =>
      match parseIcmpReply data packet_id with
      | none => none
      | some none => pingLoop packet_id n queue
      | some (some _) =>
        (pingLoop packet_id n queue).map
          (fun r => (⟨r.1.received + 1, rtt :: r.1.rtts⟩, r.2))

/-- The structured result built by `ping` in `src/ping.py` (fields of the
`PingResult` dataclass that the probe loop determines). -/
structure PingOutcome where
  packets_sent : Nat
  packets_received : Nat
  packet_loss : ℚ
  min_rtt : Option ℚ
  avg_rtt : Option ℚ
  max_rtt : Option ℚ
  is_reachable : Bool
deriving DecidableEq, Repr

/-- The result construction at the end of `ping`: the guarded loss formula
(`count > 0` branch, else `0`), reachability `packets_received > 0`, and
`min`/`sum/len`/`max` over `rtts` only when `rtts` is nonempty. -/
def mkPingOutcome (count : Nat) (acc : PingAcc) : PingOutcome where
  packets_sent := count
  packets_received := acc.received
  packet_loss :=
    if 0 < count then (((count : ℚ) - acc.received) / count) * 100 else 0
  min_rtt := acc.rtts.min?
  avg_rtt :=
    if acc.rtts = [] then none else some (acc.rtts.sum / acc.rtts.length)
  max_rtt := acc.rtts.max?
  is_reachable := decide (0 < acc.received)

/-- `ping(host, count, timeout)` after resolution and socket creation
succeed, as a function of the session identifier, the probe count and the
queue of receive events; `none` models an exception escaping the probe
loop. -/
def pingModel (packet_id count : Nat) (queue : List RecvEvent) :
    Option PingOutcome :=
  (pingLoop packet_id count queue).map (fun r => mkPingOutcome count r.1)

/-- The statistics line of `ping_stream` computes
`((count - packets_received) / count) * 100` with **no** guard on `count`:
with `count = 0` the division raises `ZeroDivisionError` (`none` here). -/
def pingStreamLoss (count packets_received : Nat) : Option ℚ :=
  if count = 0 then none
  else some ((((count : ℚ) - packets_received) / count) * 100)

/-- One traceroute probe: `recv_sock.recvfrom` either times out (`none`,
printing ` * `) or delivers a buffer, which the inline decoder classifies. -/
def trProbe (recv : Option (List Nat)) : TrOutcome :=
  match recv with
  | none => .star
  | some data => trClassify data

/-- One hop of `traceroute_stream`: `probes` sequential probes, consuming
the delivery stream at the sequence numbers `startSeq + 1 .. startSeq +
probes` (the code increments `seq` before each send, across hops). All
`probes` probes always run; `reached` is only tested after the inner loop. -/
def trHop (events : Nat → Option (List Nat)) (startSeq probes : Nat) :
    List TrOutcome :=
  (List.range probes).map (fun i => trProbe (events (startSeq + 1 + i)))

/-- `reached` is set while scanning a hop exactly when some probe of the hop
got an Echo Reply. -/
def hopReached (hop : List TrOutcome) : Bool :=
  hop.contains .echoReply

/-- The TTL loop of `traceroute_stream` (`for ttl in range(1, max_hops + 1)`)
with `hopsLeft` hops remaining and `seq` probes already sent: run a full hop,
record it, and continue only if no probe of that hop reached the
destination (`if reached: break`). -/
def trRunAux (events : Nat → Option (List Nat)) (probes : Nat) :
    Nat → Nat → List (List TrOutcome)
  | 0, _ => []
  | hopsLeft + 1, seq =>
    let hop := trHop events seq probes
    hop :: (if hopReached hop then [] else trRunAux events probes hopsLeft (seq + probes))

/-- The whole hop loop of `traceroute_stream`: the list of per-hop outcome
records it produces, in order, starting at TTL 1 with the global sequence
counter at 0. -/
def trRun (events : Nat → Option (List Nat)) (maxHops probes : Nat) :
    List (List TrOutcome) :=
  trRunAux events probes maxHops 0

/-- A 20-byte IPv4 header with TTL byte 64, used to assemble concrete
received buffers. -/
def ipHeader64 : List Nat :=
  [0, 0, 0, 0, 0, 0, 0, 0, 64, 0, 0, 0, 0, 0, 0, 0, 0, 0, 0, 0]

/-- A correctly checksummed Echo Reply (type 0) for identifier 5,
sequence 1: the word sum of the zero-field segment is `5 + 1`, so the
checksum field holds `0xFFF9 = (255, 249)`. -/
def echoReplyBuf5 : List Nat :=
  ipHeader64 ++ [0, 0, 255, 249, 0, 5, 0, 1]

/-- A correctly checksummed Echo Reply carrying identifier 6 instead of 5
(checksum field `0xFFF8 = (255, 248)` compensates). -/
def wrongIdBuf : List Nat :=
  ipHeader64 ++ [0, 0, 255, 248, 0, 6, 0, 1]

/-- A correctly checksummed Echo Reply carrying identifier
`0x1111 = 4369` (checksum field `0xEEED = (238, 237)`). -/
def foreignIdBuf : List Nat :=
  ipHeader64 ++ [0, 0, 238, 237, 17, 17, 0, 1]

/-- A correctly checksummed Time Exceeded message (type 11, checksum field
`0xF4FF = (244, 255)`). -/
def timeExceededBuf : List Nat :=
  ipHeader64 ++ [11, 0, 244, 255, 0, 0, 0, 0]

/-- A 131080-byte buffer with a zeroed checksum field whose 16-bit word sum
is `65538 * 65535 + 1 = 2^32 + 65535`: large enough that the two carry folds
of `_checksum` no longer reduce the sum to 16 bits correctly. -/
def hugeBuf : List Nat :=
  255 :: 255 :: 0 :: 0 :: (List.replicate 131074 255 ++ [0, 1])

/-- A concrete traceroute delivery stream: sequence 2 gets a Time Exceeded,
sequence 3 an Echo Reply, everything else times out. -/
def trEventsW : Nat → Option (List Nat) := fun seq =>
  if seq = 3 then some echoReplyBuf5
  else if seq = 2 then some timeExceededBuf
  else none

theorem chkOfSum_val (q m : Nat) (hq : q < 65536) (hm : m < 65536) :
    chkOfSum (65536 * q + m)
      = if q + m < 65536 then 65535 - (q + m) else 131070 - (q + m) := by
  unfold chkOfSum
  have h1 : (65536 * q + m) / 65536 = q := by omega
  have h2 : (65536 * q + m) % 65536 = m := by omega
  rw [h1, h2]
  split_ifs <;> omega

theorem chkOfSum_le (t : Nat) : chkOfSum t ≤ 65535 := by
  unfold chkOfSum
  omega

/-- The heart of the checksum splice property, at the level of word sums: as
long as the word sum stays below `2^32`, adding the computed checksum back
into the sum makes the recomputed checksum vanish. (Beyond `2^32` the two
carry folds of `_checksum` are not always enough; see the counterexample.) -/
theorem chkOfSum_splice_qm (q m : Nat) (hq : q < 65536) (hm : m < 65536) :
    chkOfSum (65536 * q + m + chkOfSum (65536 * q + m)) = 0 := by
  have hc := chkOfSum_val q m hq hm
  rcases lt_or_ge (q + m) 65536 with hA | hB
  · rw [if_pos hA] at hc
    have he : 65536 * q + m + chkOfSum (65536 * q + m)
        = 65536 * q + (65535 - q) := by omega
    rw [he, chkOfSum_val q (65535 - q) hq (by omega)]
    split_ifs <;> omega
  · rw [if_neg (by omega)] at hc
    rcases lt_or_ge q 65535 with hq1 | hq1
    · have he : 65536 * q + m + chkOfSum (65536 * q + m)
          = 65536 * (q + 1) + (65534 - q) := by omega
      rw [he, chkOfSum_val (q + 1) (65534 - q) (by omega) (by omega)]
      split_ifs <;> omega
    · have he : 65536 * q + m + chkOfSum (65536 * q + m)
          = 65536 * 65535 + 65535 := by omega
      rw [he, chkOfSum_val 65535 65535 (by omega) (by omega)]
      split_ifs <;> omega

theorem chkOfSum_splice (s : Nat) (h : s < 4294967296) :
    chkOfSum (s + chkOfSum s) = 0 := by
  have h2 := chkOfSum_splice_qm (s / 65536) (s % 65536) (by omega) (by omega)
  rw [Nat.div_add_mod] at h2
  exact h2

/-- Each 16-bit word is below `65536`, so the word sum of a well-formed byte
buffer is bounded by the word count times `65535`. -/
theorem toWords_sum_le (data : List Nat) (hb : ∀ b ∈ data, b < 256) :
    (toWords data).sum ≤ ((data.length + 1) / 2) * 65535 := by
  induction data using toWords.induct with
  | case1 => simp [toWords]
  | case2 b =>
    have := hb b (by simp)
    simp only [toWords, List.sum_cons, List.sum_nil, List.length_cons,
      List.length_nil]
    omega
  | case3 b1 b2 rest ih =>
    have h1 := hb b1 (by simp)
    have h2 := hb b2 (by simp)
    have h3 := ih (fun b hmem => hb b (by simp [hmem]))
    simp only [toWords, List.sum_cons, List.length_cons]
    omega

/-- The general splice property over byte buffers: with the checksum field
(bytes 2 and 3) zeroed before computation, splicing the computed checksum in
makes the recomputed checksum `0` — provided the buffer is small enough that
its word sum stays below `2^32` (length at most `131074` bytes suffices). -/
theorem checksum_spliceChecksum (data : List Nat) (hb : ∀ b ∈ data, b < 256)
    (hlen : 4 ≤ data.length) (hcap : data.length ≤ 131074)
    (h2 : data.getD 2 0 = 0) (h3 : data.getD 3 0 = 0) :
    checksum (spliceChecksum data (checksum data)) = 0 := by
  match data, hlen with
  | b0 :: b1 :: b2 :: b3 :: rest, _ =>
    simp only [List.getD_cons_succ, List.getD_cons_zero] at h2 h3
    subst h2 h3
    have hsum := toWords_sum_le (b0 :: b1 :: 0 :: 0 :: rest) hb
    simp only [toWords, List.sum_cons, List.length_cons] at hsum
    simp only [List.length_cons] at hcap
    have hsp : spliceChecksum (b0 :: b1 :: 0 :: 0 :: rest)
          (checksum (b0 :: b1 :: 0 :: 0 :: rest))
        = b0 :: b1 :: checksum (b0 :: b1 :: 0 :: 0 :: rest) / 256
            :: checksum (b0 :: b1 :: 0 :: 0 :: rest) % 256 :: rest := by
      simp [spliceChecksum]
    rw [hsp]
    have hcdef : checksum (b0 :: b1 :: 0 :: 0 :: rest)
        = chkOfSum (b0 * 256 + b1 + (0 * 256 + 0 + (toWords rest).sum)) := by
      simp only [checksum, toWords, List.sum_cons]
    have hver : checksum (b0 :: b1 :: checksum (b0 :: b1 :: 0 :: 0 :: rest) / 256
          :: checksum (b0 :: b1 :: 0 :: 0 :: rest) % 256 :: rest)
        = chkOfSum (b0 * 256 + b1
            + (checksum (b0 :: b1 :: 0 :: 0 :: rest) / 256 * 256
                + checksum (b0 :: b1 :: 0 :: 0 :: rest) % 256
                + (toWords rest).sum)) := by
      simp only [checksum, toWords, List.sum_cons]
    rw [hver]
    have harr : b0 * 256 + b1
          + (checksum (b0 :: b1 :: 0 :: 0 :: rest) / 256 * 256
              + checksum (b0 :: b1 :: 0 :: 0 :: rest) % 256
              + (toWords rest).sum)
        = b0 * 256 + b1 + (0 * 256 + 0 + (toWords rest).sum)
          + checksum (b0 :: b1 :: 0 :: 0 :: rest) := by
      omega
    rw [harr, hcdef]
    exact chkOfSum_splice _ (by omega)

theorem toWords_replicate_append (n : Nat) (l : List Nat) :
    toWords (List.replicate (2 * n) 255 ++ l)
      = List.replicate n 65535 ++ toWords l := by
  induction n with
  | zero => simp
  | succ k ih =>
    rw [show 2 * (k + 1) = 2 * k + 1 + 1 by ring, List.replicate_succ,
      List.replicate_succ, List.cons_append, List.cons_append,
      List.replicate_succ]
    show (255 * 256 + 255) :: toWords (List.replicate (2 * k) 255 ++ l) = _
    rw [ih]
    norm_num

theorem toWords_cons_cons (a b : Nat) (l : List Nat) :
    toWords (a :: b :: l) = (a * 256 + b) :: toWords l := by
  simp [toWords]

theorem sum_cons_cons_replicate (a b n w c : Nat) :
    ((a :: b :: (List.replicate n w ++ [c])) : List Nat).sum
      = a + b + n * w + c := by
  rw [List.sum_cons, List.sum_cons, List.sum_append, List.sum_replicate,
    smul_eq_mul, List.sum_cons, List.sum_nil]
  ring

theorem hugeBuf_sum : (toWords hugeBuf).sum = 4295032831 := by
  have htw : toWords (List.replicate 131074 255 ++ [0, 1])
      = List.replicate 65537 65535 ++ [1] := by
    rw [show (131074 : Nat) = 2 * 65537 by norm_num, toWords_replicate_append,
      show toWords [0, 1] = [1] from rfl]
  rw [show hugeBuf
      = 255 :: 255 :: 0 :: 0 :: (List.replicate 131074 255 ++ [0, 1]) from rfl,
    toWords_cons_cons, toWords_cons_cons, htw, sum_cons_cons_replicate]

/-- Claim C1, counterexample: for the 131080-byte buffer `hugeBuf` — a
well-formed byte buffer with a zeroed checksum field — splicing the computed
checksum in and recomputing yields `65535`, not `0`: the word sum
`2^32 + 65535` defeats `_checksum`'s two carry folds, so the claim's "for
every byte buffer" fails. -/
theorem checksum_splice_fails_on_huge_buffer :
    checksum (spliceChecksum hugeBuf (checksum hugeBuf)) = 65535
    ∧ hugeBuf.getD 2 0 = 0 ∧ hugeBuf.getD 3 0 = 0
    ∧ (∀ b ∈ hugeBuf, b < 256) := by
  have hc : checksum hugeBuf = 65535 := by
    rw [checksum, hugeBuf_sum]; decide
  have hsp : spliceChecksum hugeBuf 65535
      = 255 :: 255 :: 255 :: 255 :: (List.replicate 131074 255 ++ [0, 1]) := by
    show hugeBuf.take 2 ++ [65535 / 256, 65535 % 256] ++ hugeBuf.drop 4 = _
    norm_num [hugeBuf]
  have htw : toWords (List.replicate 131074 255 ++ [0, 1])
      = List.replicate 65537 65535 ++ [1] := by
    rw [show (131074 : Nat) = 2 * 65537 by norm_num, toWords_replicate_append,
      show toWords [0, 1] = [1] from rfl]
  have hsum2 :
      (toWords (255 :: 255 :: 255 :: 255
        :: (List.replicate 131074 255 ++ [0, 1]))).sum = 4295098366 := by
    rw [toWords_cons_cons, toWords_cons_cons, htw, sum_cons_cons_replicate]
  refine ⟨?_, rfl, rfl, ?_⟩
  · rw [hc, hsp, checksum, hsum2]; decide
  · intro b hb
    simp only [hugeBuf, List.mem_cons, List.mem_append,
      List.mem_replicate] at hb
    rcases hb with rfl | rfl | rfl | rfl | (⟨_, rfl⟩ | hb)
    · omega
    · omega
    · omega
    · omega
    · omega
    · simp only [List.mem_cons, List.not_mem_nil] at hb
      rcases hb with rfl | rfl | h
      · omega
      · omega
      · exact absurd h (by simp)

/-- Claim C1 (amended with the size bound the counterexample forces): for
every byte buffer of at most 131074 bytes with a zeroed checksum field —
which covers every packet this program builds (at most 264 bytes) or
receives (`recvfrom(1024)`) — splicing the computed checksum into bytes 2-3
makes the recomputed checksum 0; and every packet `_create_icmp_packet`
produces recomputes to checksum 0. -/
theorem checksum_splice_bounded :
    (∀ data : List Nat, (∀ b ∈ data, b < 256) → 4 ≤ data.length →
        data.length ≤ 131074 → data.getD 2 0 = 0 → data.getD 3 0 = 0 →
        checksum (spliceChecksum data (checksum data)) = 0)
    ∧ ∀ packet_id seq payload_size p,
        createIcmpPacket packet_id seq payload_size = some p →
        checksum p = 0 := by
  refine ⟨checksum_spliceChecksum, ?_⟩
  intro pid seq ps p hp
  unfold createIcmpPacket at hp
  split_ifs at hp with hguard
  push_neg at hguard
  obtain ⟨hpid, hseq, hps⟩ := hguard
  simp only [Option.some.injEq] at hp
  subst hp
  have hform : [8, 0, checksum ([8, 0, 0, 0, pid / 256, pid % 256,
          seq / 256, seq % 256] ++ List.range ps) / 256,
        checksum ([8, 0, 0, 0, pid / 256, pid % 256,
          seq / 256, seq % 256] ++ List.range ps) % 256,
        pid / 256, pid % 256, seq / 256, seq % 256] ++ List.range ps
      = spliceChecksum
          ([8, 0, 0, 0, pid / 256, pid % 256, seq / 256, seq % 256]
            ++ List.range ps)
          (checksum ([8, 0, 0, 0, pid / 256, pid % 256,
            seq / 256, seq % 256] ++ List.range ps)) := by
    rfl
  rw [hform]
  apply checksum_spliceChecksum
  · intro b hb
    simp only [List.mem_append, List.mem_cons, List.not_mem_nil,
      List.mem_range, or_false] at hb
    rcases hb with (rfl | rfl | rfl | rfl | rfl | rfl | rfl | rfl) | hb
      <;> omega
  · simp
  · simp only [List.length_append, List.length_range]
    norm_num
    omega
  · rfl
  · rfl

/-- Witness for C1: a small concrete buffer with zeroed field splices to
checksum 0, and the concrete packet for identifier 5, sequence 1, empty
payload recomputes to 0. -/
theorem checksum_splice_bounded_witness :
    checksum (spliceChecksum [1, 2, 0, 0, 3, 4] (checksum [1, 2, 0, 0, 3, 4])) = 0
    ∧ checksum [8, 0, 247, 249, 0, 5, 0, 1] = 0 :=
  ⟨checksum_splice_bounded.1 [1, 2, 0, 0, 3, 4] (by decide) (by decide)
      (by decide) rfl rfl,
    checksum_splice_bounded.2 5 1 0 [8, 0, 247, 249, 0, 5, 0, 1] (by decide)⟩

/-- Claim C5, counterexample: encoding is not defined for every requested
`payload_size` — at `payload_size = 257` the construction fails
(`bytes(range(257))` raises `ValueError`, values above 255 are not bytes),
so no packet with payload byte `i = i % 256` is produced. -/
theorem create_packet_fails_beyond_256 : createIcmpPacket 1 1 257 = none := rfl

/-- Claim C5 (amended: `payload_size` capped at 256, which the
counterexample forces; identifier and sequence are 16-bit values per the
data model): Encode yields an 8-byte header `type=8, code=0, checksum,
identifier, sequence` (big-endian) followed by exactly `payload_size` bytes
with byte `i` equal to `i % 256`. -/
theorem create_packet_structure :
    ∀ packet_id seq payload_size,
      packet_id < 65536 → seq < 65536 → payload_size ≤ 256 →
      ∃ p, createIcmpPacket packet_id seq payload_size = some p
        ∧ p.length = 8 + payload_size
        ∧ p.getD 0 0 = 8 ∧ p.getD 1 0 = 0
        ∧ p.getD 4 0 = packet_id / 256 ∧ p.getD 5 0 = packet_id % 256
        ∧ p.getD 6 0 = seq / 256 ∧ p.getD 7 0 = seq % 256
        ∧ ∀ i, i < payload_size → p.getD (8 + i) 0 = i % 256 := by
  intro pid seq ps hpid hseq hps
  refine ⟨[8, 0,
      checksum ([8, 0, 0, 0, pid / 256, pid % 256, seq / 256, seq % 256]
        ++ List.range ps) / 256,
      checksum ([8, 0, 0, 0, pid / 256, pid % 256, seq / 256, seq % 256]
        ++ List.range ps) % 256,
      pid / 256, pid % 256, seq / 256, seq % 256] ++ List.range ps,
    ?_, ?_, rfl, rfl, rfl, rfl, rfl, rfl, ?_⟩
  · rw [createIcmpPacket, if_neg (by omega)]
  · simp only [List.length_append, List.length_range, List.length_cons,
      List.length_nil]
  · intro i hi
    have h8 : ([8, 0,
        checksum ([8, 0, 0, 0, pid / 256, pid % 256, seq / 256, seq % 256]
          ++ List.range ps) / 256,
        checksum ([8, 0, 0, 0, pid / 256, pid % 256, seq / 256, seq % 256]
          ++ List.range ps) % 256,
        pid / 256, pid % 256, seq / 256, seq % 256] : List Nat).length = 8 := rfl
    rw [List.getD_append_right _ _ _ _ (by rw [h8]; omega), h8,
      show 8 + i - 8 = i by omega,
      List.getD_eq_getElem _ _ (by simpa using hi)]
    simp only [List.getElem_range]
    omega

/-- Witness for C5: the concrete packet for identifier 5, sequence 1,
payload size 2. -/
theorem create_packet_structure_witness :
    ∃ p, createIcmpPacket 5 1 2 = some p
      ∧ p.length = 8 + 2
      ∧ p.getD 0 0 = 8 ∧ p.getD 1 0 = 0
      ∧ p.getD 4 0 = 5 / 256 ∧ p.getD 5 0 = 5 % 256
      ∧ p.getD 6 0 = 1 / 256 ∧ p.getD 7 0 = 1 % 256
      ∧ ∀ i, i < 2 → p.getD (8 + i) 0 = i % 256 :=
  create_packet_structure 5 1 2 (by decide) (by decide) (by decide)

theorem getD_take (l : List Nat) (n i : Nat) (h : i < n) :
    (l.take n).getD i 0 = l.getD i 0 := by
  induction l generalizing n i with
  | nil => simp
  | cons a t ih =>
    cases n with
    | zero => omega
    | succ m =>
      cases i with
      | zero => simp
      | succ j =>
        simp only [List.take_succ_cons, List.getD_cons_succ]
        exact ih m j (by omega)

/-- Claim C8: `_parse_icmp_reply` is total exactly on buffers of at least 28
bytes — such a buffer always parses to a result or `None` — while a shorter
buffer (the empty buffer, for instance) raises before returning: reading the
TTL byte or unpacking the 8-byte ICMP header fails. -/
theorem parse_reply_totality :
    (∀ (data : List Nat) (packet_id : Nat), 28 ≤ data.length →
        (parseIcmpReply data packet_id).isSome)
    ∧ parseIcmpReply [] 0 = none := by
  refine ⟨?_, rfl⟩
  intro data packet_id h
  simp only [parseIcmpReply, if_neg (by omega : ¬data.length < 9),
    if_neg (by omega : ¬data.length < 28)]
  split_ifs <;> rfl

/-- Witness for C8: the concrete 28-byte reply parses to a value, and the
empty buffer raises. -/
theorem parse_reply_totality_witness :
    (parseIcmpReply echoReplyBuf5 5).isSome ∧ parseIcmpReply [] 0 = none :=
  ⟨parse_reply_totality.1 echoReplyBuf5 5 (by decide), parse_reply_totality.2⟩

/-- Claim C2 (amended: the identifier check exists only in the ping path):
the ping decoder `_parse_icmp_reply` accepts a buffer (returns a parsed
reply) only when the identifier field equals the expected identifier, and a
correctly checksummed Echo Reply with any other identifier decodes to `None`
(discarded). The traceroute reply path, by contrast, never compares
identifiers (see the counterexample). -/
theorem ping_identifier_isolation :
    (∀ (data : List Nat) (packet_id : Nat) (r : Nat × Nat),
        parseIcmpReply data packet_id = some (some r) →
        recvIdOf data = packet_id)
    ∧ (∀ (data : List Nat) (packet_id : Nat), 28 ≤ data.length →
        checksum ((data.drop 20).take 8 ++ data.drop 28) = 0 →
        icmpTypeOf data = 0 →
        recvIdOf data ≠ packet_id →
        parseIcmpReply data packet_id = some none) := by
  constructor
  · intro data packet_id r h
    simp only [parseIcmpReply] at h
    split_ifs at h with h1 h2 h3 h4 <;> cases h
    rw [recvIdOf, ← getD_take _ 8 4 (by omega), ← getD_take _ 8 5 (by omega)]
    exact h4.2.2
  · intro data packet_id hlen hchk htype hid
    simp only [parseIcmpReply, if_neg (by omega : ¬data.length < 9),
      if_neg (by omega : ¬data.length < 28)]
    rw [if_neg (by simpa using hchk), if_neg]
    intro hcond
    apply hid
    rw [recvIdOf, ← getD_take _ 8 4 (by omega), ← getD_take _ 8 5 (by omega)]
    exact hcond.2.2

/-- Witness for C2: the concrete correctly checksummed Echo Reply carrying
identifier 6 decodes to `None` for a session expecting identifier 5. -/
theorem ping_identifier_isolation_witness :
    parseIcmpReply wrongIdBuf 5 = some none :=
  ping_identifier_isolation.2 wrongIdBuf 5 (by decide) (by decide) (by decide)
    (by decide)

/-- Claim C2, counterexample: `foreignIdBuf` is a correctly checksummed Echo
Reply whose identifier field is `0x1111 = 4369`; a traceroute session
expecting any other identifier (say `0x2222 = 8738`) still classifies the
buffer as an Echo Reply and marks the destination reached — the buffer is
not discarded, because the traceroute reply path never reads the identifier
field. -/
theorem traceroute_accepts_foreign_identifier :
    trClassify foreignIdBuf = .echoReply
    ∧ checksum (foreignIdBuf.drop 20) = 0
    ∧ recvIdOf foreignIdBuf = 4369 ∧ (4369 : Nat) ≠ 8738 := by decide

/-- Claim C3 (amended: the two engines have separate decoders): the
traceroute inline decoder accepts a correctly checksummed type-11 buffer
unconditionally (no identifier needed) as TimeExceeded and yields no
outcome for types other than 0 and 11; the ping decoder `_parse_icmp_reply`
knows only two outcomes and maps any correctly checksummed buffer whose
type is not 0 — type 11 included — to `None` (Invalid). -/
theorem time_exceeded_handling :
    (∀ data : List Nat, checksum (data.drop 20) = 0 →
        (icmpTypeOf data = 11 → trClassify data = .timeExceeded)
        ∧ (icmpTypeOf data ≠ 0 → icmpTypeOf data ≠ 11 →
            trClassify data = .skipOther))
    ∧ (∀ (data : List Nat) (packet_id : Nat), 28 ≤ data.length →
        checksum ((data.drop 20).take 8 ++ data.drop 28) = 0 →
        icmpTypeOf data ≠ 0 →
        parseIcmpReply data packet_id = some none) := by
  constructor
  · intro data hchk
    constructor
    · intro ht
      rw [trClassify, if_neg (by simpa using hchk), if_pos ht]
    · intro ht0 ht11
      rw [trClassify, if_neg (by simpa using hchk), if_neg ht11, if_neg ht0]
  · intro data packet_id hlen hchk htype
    simp only [parseIcmpReply, if_neg (by omega : ¬data.length < 9),
      if_neg (by omega : ¬data.length < 28)]
    rw [if_neg (by simpa using hchk), if_neg]
    intro hcond
    apply htype
    rw [icmpTypeOf, ← getD_take _ 8 0 (by omega)]
    exact hcond.1

/-- Witness for C3: the concrete correctly checksummed Time Exceeded buffer
is classified TimeExceeded by traceroute, and a concrete correctly
checksummed type-3 buffer decodes to `None` in the ping decoder. -/
theorem time_exceeded_handling_witness :
    trClassify timeExceededBuf = .timeExceeded
    ∧ parseIcmpReply (ipHeader64 ++ [3, 0, 252, 255, 0, 0, 0, 0]) 5
        = some none :=
  ⟨(time_exceeded_handling.1 timeExceededBuf (by decide)).1 (by decide),
    time_exceeded_handling.2 (ipHeader64 ++ [3, 0, 252, 255, 0, 0, 0, 0]) 5
      (by decide) (by decide) (by decide)⟩

/-- Claim C3, counterexample: for the correctly checksummed Time Exceeded
buffer, the ping decoder returns `None` (Invalid) while the traceroute
decoder returns TimeExceeded — there is no shared three-outcome decode
serving both engines; `_parse_icmp_reply` never yields a TimeExceeded
outcome. -/
theorem ping_decoder_rejects_time_exceeded :
    parseIcmpReply timeExceededBuf 5 = some none
    ∧ trClassify timeExceededBuf = .timeExceeded := by decide

/-- Claim C9: `_checksum` always returns a value in `0..65535` (the final
complement is masked to 16 bits), so the computed checksum fits the 16-bit
checksum field and re-packing the header never fails on an out-of-range
field value: construction succeeds for every in-range identifier, sequence
and payload size. -/
theorem checksum_16bit_range :
    (∀ data : List Nat, checksum data ≤ 65535)
    ∧ ∀ packet_id seq payload_size,
        packet_id < 65536 → seq < 65536 → payload_size ≤ 256 →
        (createIcmpPacket packet_id seq payload_size).isSome := by
  refine ⟨fun data => chkOfSum_le _, ?_⟩
  intro packet_id seq payload_size h1 h2 h3
  rw [createIcmpPacket, if_neg (by omega)]
  rfl

/-- Witness for C9: concrete checksum value in range, and a concrete
successful construction. -/
theorem checksum_16bit_range_witness :
    checksum [255, 255, 255] ≤ 65535 ∧ (createIcmpPacket 5 1 2).isSome :=
  ⟨checksum_16bit_range.1 [255, 255, 255],
    checksum_16bit_range.2 5 1 2 (by decide) (by decide) (by decide)⟩

/-- Claim C10: `ping` with `count = 0` runs no probes and returns
`packets_sent = 0`, `packets_received = 0`, `packet_loss = 0`, no RTT
statistics and `is_reachable = false` without failing (its loss division is
guarded by `count > 0`), while the statistics line of `ping_stream` divides
by `count` unguarded and raises `ZeroDivisionError` at `count = 0`. -/
theorem ping_count_zero_guarded :
    (∀ (packet_id : Nat) (queue : List RecvEvent),
        pingModel packet_id 0 queue
          = some ⟨0, 0, 0, none, none, none, false⟩)
    ∧ ∀ packets_received : Nat, pingStreamLoss 0 packets_received = none :=
  ⟨fun _ _ => rfl, fun _ => rfl⟩

/-- Claim C4 (amended: the code does not re-arm the receive): a received
buffer that fails decode is counted as neither a reply nor a timeout — the
probe loop proceeds exactly as if that probe were skipped — but the session
does **not** continue waiting for another buffer within the same timeout
window: each probe performs exactly one `recvfrom`, so the invalid buffer
ends the probe (the counterexample shows a valid reply queued right behind
the invalid buffer is not credited to that probe). -/
theorem invalid_buffer_not_counted :
    ∀ (packet_id n : Nat) (queue : List RecvEvent) (data : List Nat)
      (rtt : ℚ),
      parseIcmpReply data packet_id = some none →
      pingLoop packet_id (n + 1) (RecvEvent.buffer data rtt :: queue)
        = pingLoop packet_id n queue := by
  intro packet_id n queue data rtt h
  simp [pingLoop, h]

/-- Witness for C4: consuming the concrete mismatched-identifier buffer
leaves the remaining session unchanged. -/
theorem invalid_buffer_not_counted_witness :
    pingLoop 5 1 [RecvEvent.buffer wrongIdBuf 3] = pingLoop 5 0 [] :=
  invalid_buffer_not_counted 5 0 [] wrongIdBuf 3 (by decide)

/-- Claim C4, counterexample: probe count 1, delivery queue
`[invalid buffer, valid reply]`. The session ends with 0 packets received
and the valid reply still unconsumed in the queue — the probe performed
exactly one receive rather than continuing to wait within its timeout
window, so the subsequent valid reply was not accepted for that probe,
contrary to the claim. -/
theorem ping_drops_reply_after_invalid_buffer :
    pingModel 5 1
        [RecvEvent.buffer wrongIdBuf 10, RecvEvent.buffer echoReplyBuf5 12]
      = some (mkPingOutcome 1 ⟨0, []⟩)
    ∧ (mkPingOutcome 1 ⟨0, []⟩).packets_received = 0
    ∧ pingLoop 5 1
        [RecvEvent.buffer wrongIdBuf 10, RecvEvent.buffer echoReplyBuf5 12]
      = some (⟨0, []⟩, [RecvEvent.buffer echoReplyBuf5 12])
    ∧ parseIcmpReply echoReplyBuf5 5 = some (some (1, 64)) :=
  ⟨rfl, rfl, rfl, by decide⟩

/-- Loop invariant of the ping probe loop: at most one reply is counted per
probe, and the received counter always equals the number of recorded
round-trip times. -/
theorem pingLoop_inv (packet_id : Nat) :
    ∀ (n : Nat) (queue : List RecvEvent) (acc : PingAcc)
      (rest : List RecvEvent),
      pingLoop packet_id n queue = some (acc, rest) →
      acc.received ≤ n ∧ acc.received = acc.rtts.length := by
  intro n
  induction n with
  | zero =>
    intro queue acc rest h
    simp only [pingLoop, Option.some.injEq, Prod.mk.injEq] at h
    rw [← h.1]
    exact ⟨Nat.le_refl 0, rfl⟩
  | succ k ih =>
    intro queue acc rest h
    cases queue with
    | nil => exact absurd h (by simp [pingLoop])
    | cons e q =>
      cases e with
      | timeout =>
        have h' : pingLoop packet_id k q = some (acc, rest) := h
        have := ih q acc rest h'
        exact ⟨by omega, this.2⟩
      | buffer data rtt =>
        simp only [pingLoop] at h
        cases hp : parseIcmpReply data packet_id with
        | none => rw [hp] at h; exact absurd h (by simp)
        | some o =>
          cases o with
          | none =>
            rw [hp] at h
            have := ih q acc rest h
            exact ⟨by omega, this.2⟩
          | some v =>
            rw [hp] at h
            cases hq : pingLoop packet_id k q with
            | none => rw [hq] at h; exact absurd h (by simp)
            | some pr =>
              obtain ⟨a, tail⟩ := pr
              rw [hq] at h
              simp only [Option.map_some', Option.some.injEq,
                Prod.mk.injEq] at h
              have hih := ih q a tail hq
              obtain ⟨h1, h2⟩ := h
              subst h1
              refine ⟨?_, ?_⟩
              · show a.received + 1 ≤ k + 1
                omega
              · show a.received + 1 = (rtt :: a.rtts).length
                simp only [List.length_cons]
                omega

/-- Claim C6: in every completed ping session,
`packets_received ≤ packets_sent`, the reported loss equals
`(sent - received) / sent * 100` exactly (as exact rationals; at
`sent = 0` both the guarded code value and the formula are 0), and the
min/avg/max round-trip statistics are all absent when no packet was
received and all present otherwise. -/
theorem ping_loss_invariant :
    ∀ (packet_id count : Nat) (queue : List RecvEvent) (res : PingOutcome),
      pingModel packet_id count queue = some res →
      res.packets_received ≤ res.packets_sent
      ∧ res.packet_loss
          = ((res.packets_sent : ℚ) - res.packets_received)
              / res.packets_sent * 100
      ∧ (res.packets_received = 0 →
          res.min_rtt = none ∧ res.avg_rtt = none ∧ res.max_rtt = none)
      ∧ (0 < res.packets_received →
          res.min_rtt.isSome ∧ res.avg_rtt.isSome ∧ res.max_rtt.isSome) := by
  intro packet_id count queue res h
  rw [pingModel] at h
  cases hq : pingLoop packet_id count queue with
  | none => rw [hq] at h; exact absurd h (by simp)
  | some pr =>
    obtain ⟨acc, rest⟩ := pr
    rw [hq] at h
    simp only [Option.map_some', Option.some.injEq] at h
    have hinv := pingLoop_inv packet_id count queue acc rest hq
    subst h
    have hsent : (mkPingOutcome count acc).packets_sent = count := rfl
    have hrecv : (mkPingOutcome count acc).packets_received
        = acc.received := rfl
    have hloss : (mkPingOutcome count acc).packet_loss
        = if 0 < count then (((count : ℚ) - acc.received) / count) * 100
          else 0 := rfl
    have hmin : (mkPingOutcome count acc).min_rtt = acc.rtts.min? := rfl
    have havg : (mkPingOutcome count acc).avg_rtt
        = if acc.rtts = [] then none
          else some (acc.rtts.sum / (acc.rtts.length : ℚ)) := rfl
    have hmax : (mkPingOutcome count acc).max_rtt = acc.rtts.max? := rfl
    rw [hsent, hrecv, hloss, hmin, havg, hmax]
    refine ⟨hinv.1, ?_, ?_, ?_⟩
    · rcases Nat.eq_zero_or_pos count with hc | hc
      · subst hc
        have h0 : acc.received = 0 := by omega
        rw [h0, if_neg (by omega)]
        norm_num
      · rw [if_pos hc]
    · intro h0
      have hlen : acc.rtts = [] := by
        have h2 := hinv.2
        rw [h0] at h2
        exact List.length_eq_zero.mp h2.symm
      rw [hlen]
      exact ⟨rfl, rfl, rfl⟩
    · intro h0
      have hlen : acc.rtts ≠ [] := by
        intro hnil
        have h2 := hinv.2
        rw [hnil] at h2
        simp at h2
        omega
      cases hr : acc.rtts with
      | nil => exact absurd hr hlen
      | cons a t =>
        refine ⟨rfl, ?_, rfl⟩
        rw [if_neg (by simp)]
        rfl

/-- Witness for C6: the session with one probe and one timeout event. -/
theorem ping_loss_invariant_witness :
    (mkPingOutcome 1 ⟨0, []⟩).packets_received
        ≤ (mkPingOutcome 1 ⟨0, []⟩).packets_sent
    ∧ (mkPingOutcome 1 ⟨0, []⟩).packet_loss
        = (((mkPingOutcome 1 ⟨0, []⟩).packets_sent : ℚ)
              - (mkPingOutcome 1 ⟨0, []⟩).packets_received)
            / (mkPingOutcome 1 ⟨0, []⟩).packets_sent * 100
    ∧ ((mkPingOutcome 1 ⟨0, []⟩).packets_received = 0 →
        (mkPingOutcome 1 ⟨0, []⟩).min_rtt = none
        ∧ (mkPingOutcome 1 ⟨0, []⟩).avg_rtt = none
        ∧ (mkPingOutcome 1 ⟨0, []⟩).max_rtt = none)
    ∧ (0 < (mkPingOutcome 1 ⟨0, []⟩).packets_received →
        (mkPingOutcome 1 ⟨0, []⟩).min_rtt.isSome
        ∧ (mkPingOutcome 1 ⟨0, []⟩).avg_rtt.isSome
        ∧ (mkPingOutcome 1 ⟨0, []⟩).max_rtt.isSome) :=
  ping_loss_invariant 5 1 [RecvEvent.timeout] (mkPingOutcome 1 ⟨0, []⟩) rfl

theorem trHop_length (events : Nat → Option (List Nat))
    (startSeq probes : Nat) : (trHop events startSeq probes).length = probes := by
  simp [trHop]

theorem hopReached_iff (hop : List TrOutcome) :
    hopReached hop = true ↔ TrOutcome.echoReply ∈ hop := by
  simp [hopReached]

theorem trRunAux_length_le (events : Nat → Option (List Nat)) (probes : Nat) :
    ∀ (n seq : Nat), (trRunAux events probes n seq).length ≤ n := by
  intro n
  induction n with
  | zero => intro seq; simp [trRunAux]
  | succ k ih =>
    intro seq
    simp only [trRunAux, List.length_cons]
    split_ifs with h
    · simp
    · have := ih (seq + probes)
      simpa using Nat.succ_le_succ this

theorem trRunAux_hop_length (events : Nat → Option (List Nat))
    (probes : Nat) :
    ∀ (n seq : Nat) (hop : List TrOutcome),
      hop ∈ trRunAux events probes n seq → hop.length = probes := by
  intro n
  induction n with
  | zero => intro seq hop h; exact absurd h (by simp [trRunAux])
  | succ k ih =>
    intro seq hop h
    simp only [trRunAux, List.mem_cons] at h
    rcases h with rfl | h
    · exact trHop_length events seq probes
    · split_ifs at h with hr
      · exact absurd h (by simp)
      · exact ih (seq + probes) hop h

theorem trRunAux_echo_last (events : Nat → Option (List Nat))
    (probes : Nat) :
    ∀ (n seq i : Nat),
      TrOutcome.echoReply ∈ (trRunAux events probes n seq).getD i [] →
      (trRunAux events probes n seq).length = i + 1 := by
  intro n
  induction n with
  | zero => intro seq i h; exact absurd h (by simp [trRunAux])
  | succ k ih =>
    intro seq i h
    by_cases hr : hopReached (trHop events seq probes)
    · have hrun : trRunAux events probes (k + 1) seq
          = [trHop events seq probes] := by
        simp [trRunAux, hr]
      rw [hrun] at h ⊢
      cases i with
      | zero => rfl
      | succ j =>
        exact absurd h (by simp [List.getD])
    · have hrun : trRunAux events probes (k + 1) seq
          = trHop events seq probes
              :: trRunAux events probes k (seq + probes) := by
        simp [trRunAux, hr]
      rw [hrun] at h ⊢
      cases i with
      | zero =>
        rw [List.getD_cons_zero] at h
        exact absurd ((hopReached_iff _).mpr h) hr
      | succ j =>
        rw [List.getD_cons_succ] at h
        have := ih (seq + probes) j h
        simp only [List.length_cons, this]

/-- Claim C7: every traceroute run executes at most `max_hops` hops; all
probes of a hop run to completion (every recorded hop, the final one
included, holds exactly `probes` outcomes); and a hop containing an
EchoReply outcome is always the last hop of the run — no further hops are
issued after it. -/
theorem traceroute_termination :
    ∀ (events : Nat → Option (List Nat)) (maxHops probes : Nat),
      (trRun events maxHops probes).length ≤ maxHops
      ∧ (∀ hop ∈ trRun events maxHops probes, hop.length = probes)
      ∧ ∀ i, TrOutcome.echoReply ∈ (trRun events maxHops probes).getD i [] →
          (trRun events maxHops probes).length = i + 1 := by
  intro events maxHops probes
  exact ⟨trRunAux_length_le events probes maxHops 0,
    fun hop h => trRunAux_hop_length events probes maxHops 0 hop h,
    fun i h => trRunAux_echo_last events probes maxHops 0 i h⟩

/-- Witness for C7: probes = 2, max_hops = 3 against `trEventsW` — hop 1 is
`[timeout, TimeExceeded]`, hop 2 starts with an Echo Reply but still runs
its second probe, and the run stops after hop 2 of 3. -/
theorem traceroute_termination_witness :
    (trRun trEventsW 3 2).length ≤ 3
    ∧ ((trRun trEventsW 3 2).getD 1 []).length = 2
    ∧ (trRun trEventsW 3 2).length = 1 + 1 :=
  ⟨(traceroute_termination trEventsW 3 2).1,
    (traceroute_termination trEventsW 3 2).2.1 _ (by decide),
    (traceroute_termination trEventsW 3 2).2.2 1 (by decide)⟩

end NetworkUtils
